import Mathlib

/-!
Verification of the fsdb storage engine (J-Cake/fsdb).

The definitions below are a shallow embedding of the Rust sources:
`src/database.rs`, `src/page.rs`, `src/mediator.rs`, `src/format/array.rs`.
Machine integers (u64, u16) are modelled as `Nat`; where the source's u64
arithmetic can wrap we model the release-mode wrapping explicitly via
`u64sub`.  Byte buffers are `List Nat` (each entry one byte).  Fallible
operations return `Option` or `Except`.
-/

namespace Fsdb

/-- Byte range `{length, offset}`; `Array` from src/format/array.rs lines 8-12
(the same struct is redeclared in src/database.rs lines 44-48). -/
structure Array where
  length : Nat
  offset : Nat
deriving DecidableEq

/-- `Array::end` from src/format/array.rs lines 19-21: `offset + length`. -/
def Array.«end» (a : Array) : Nat := a.offset + a.length

/-- Modulus of 64-bit unsigned arithmetic. -/
def U64 : Nat := 2 ^ 64

/-- Wrapping u64 subtraction `a - b`, the release-mode semantics of the
source's unchecked `u64` subtraction (debug builds panic instead). -/
def u64sub (a b : Nat) : Nat := (a + (U64 - b % U64)) % U64

/-- `round` from src/format/array.rs lines 3-6: `x + (n - x % n)`
(the identical helper also appears in src/database.rs lines 23-26). -/
def round (x n : Nat) : Nat := x + (n - x % n)

/-- Claim C4: for every x and every n > 0 (ignoring overflow),
`round x n = x + (n - x % n)`; when `x % n = 0` the result is `x + n`; the
result is always strictly greater than `x` and a multiple of `n`. -/
theorem round_spec (x n : Nat) (h : 0 < n) :
    round x n = x + (n - x % n) ∧ (x % n = 0 → round x n = x + n) ∧
    x < round x n ∧ n ∣ round x n := by
  have hm : x % n < n := Nat.mod_lt x h
  refine ⟨rfl, ?_, ?_, ?_⟩
  · intro h0; simp [round, h0]
  · have hpos : 0 < n - x % n := Nat.sub_pos_of_lt hm
    unfold round; omega
  · have hdm : n * (x / n) + x % n = x := Nat.div_add_mod x n
    refine ⟨x / n + 1, ?_⟩
    have hmul : n * (x / n + 1) = n * (x / n) + n := by ring
    unfold round; omega

/-- Claim C4 witness at x = 6, n = 3. -/
theorem round_spec_witness :
    round 6 3 = 6 + (3 - 6 % 3) ∧ (6 % 3 = 0 → round 6 3 = 6 + 3) ∧
    6 < round 6 3 ∧ 3 ∣ round 6 3 :=
  round_spec 6 3 (by decide)

/-- Conflict decision of the mediator thread, src/mediator.rs lines 65-88:
`binary_search_by` on the offset-sorted lock cache followed by
`cache.get(index)` consults the first cached entry whose offset is at
least the request's offset — entries starting below the request's offset
are never consulted — and the request is failed with `Busy` exactly when
that entry exists and `cache_entry.0.offset <= req.range.offset +
req.range.length`.  The cache is taken sorted by offset (the thread keeps
it sorted by inserting at the binary-search index), under which the
consulted entry is the first one with `req.offset ≤ entry.offset`. -/
def mediatorConflict (cache : List Array) (req : Array) : Bool :=
  match cache.find? (fun e => decide (req.offset ≤ e.offset)) with
  | some entry => decide (entry.offset ≤ req.offset + req.length)
  | none => false

/-- Overlap predicate asserted by the claim (spec section 4.4):
ranges a and b overlap iff `a.offset < b.end() ∧ b.offset < a.end()`. -/
def specOverlap (a b : Array) : Prop :=
  a.offset < b.«end» ∧ b.offset < a.«end»

instance (a b : Array) : Decidable (specOverlap a b) := by
  unfold specOverlap; infer_instance

/-- Claim C3 (code bug): the mediator's conflict decision is not the
symmetric overlap predicate, in both directions.  A cached lock [10,110)
overlapping the request [100,104) is never consulted (no cached offset is
at least 100: binary search returns the past-the-end index and
`cache.get` yields `None`), so the request proceeds without `Busy`; and a
cached lock [104,109), disjoint from the same request, is rejected with
`Busy` since 104 ≤ 104. -/
theorem mediator_conflict_not_overlap :
    mediatorConflict [Array.mk 100 10] (Array.mk 4 100) = false ∧
    specOverlap (Array.mk 100 10) (Array.mk 4 100) ∧
    mediatorConflict [Array.mk 5 104] (Array.mk 4 100) = true ∧
    ¬ specOverlap (Array.mk 5 104) (Array.mk 4 100) := by decide

/-- Locate pass shared by `Page::read` (src/page.rs lines 96-116) and the
in-chunk branch of `Page::write` (lines 123-141): walk the chunk list
accumulating `running_size`; on the first chunk with
`running_size + len > index` return the backing position
`start + (index - running_size)` and the count `min len buf.len` of the
single positioned access; `none` models falling off the loop. -/
def readLocate : List Array → Nat → Nat → Nat → Option (Nat × Nat)
  | [], _, _, _ => none
  | c :: rest, running, index, bufLen =>
    if index < running + c.length then
      some (c.offset + (index - running), min c.length bufLen)
    else
      readLocate rest (running + c.length) index bufLen

/-- Number of bytes returned by `Page::read` (0 when the cursor is at or
past the logical end, src/page.rs line 115). -/
def pageReadCount (chunks : List Array) (index bufLen : Nat) : Nat :=
  match readLocate chunks 0 index bufLen with
  | some x => x.2
  | none => 0

/-- Claim C2 (code bug): with a single chunk [100,104) and the cursor at 2,
a 4-byte read accesses backing bytes 102..106, crossing the chunk end 104,
because the source takes `min chunk.length buf.len` without subtracting the
cursor's in-chunk offset.  The parts of the claim that do hold are also
recorded: a 6-byte read at cursor 0 over two 4-byte chunks returns 4 bytes,
and a read at the logical end returns 0 bytes. -/
theorem page_read_crosses_chunk_end :
    readLocate [Array.mk 4 100] 0 2 4 = some (102, 4) ∧
    (Array.mk 4 100).«end» = 104 ∧
    104 < 102 + 4 ∧
    pageReadCount [Array.mk 4 100, Array.mk 4 200] 0 6 = 4 ∧
    pageReadCount [Array.mk 4 100, Array.mk 4 200] 8 6 = 0 := by decide

/-- Insert one element into a list already sorted by `key`, before the
first element of equal or larger key (stable). -/
def insertByKey (key : Array → Nat) (x : Array) : List Array → List Array
  | [] => [x]
  | y :: ys => if key x ≤ key y then x :: y :: ys else y :: insertByKey key x ys

/-- Stable insertion sort, modelling the source's `sort_unstable_by` on a
key (for the small slices the allocator produces the standard library falls
back to an insertion sort, which keeps equal keys in input order). -/
def sortByKey (key : Array → Nat) : List Array → List Array
  | [] => []
  | x :: xs => insertByKey key x (sortByKey key xs)

/-- Gap derivation scan of `allocate_chunks`, src/database.rs lines 562-573:
with accumulator `a` (initially `{length: 0, offset: data_offset}`) each
element `i` yields the gap `{length: i.offset - (a.offset + a.length),
offset: a.offset + a.length}` and replaces the accumulator.  The u64
subtraction wraps. -/
def gapScan : Array → List Array → List Array
  | _, [] => []
  | a, i :: rest =>
    Array.mk (u64sub i.offset (a.offset + a.length)) (a.offset + a.length) ::
      gapScan i rest

/-- `allocate_chunks` from src/database.rs lines 546-589.  Inputs: the
chunks of every page in the inode table, the value of `data_offset()`, the
current container length, and `min_space`.  Returns the allocated ranges
together with the container length after the call (extended only on the
no-fitting-gap branch, where the source appends
`min_space + (0x1000 - min_space % 0x1000)` zero bytes). -/
def allocate_chunks (chunks : List Array) (dataOffset totalLength minSpace : Nat) :
    List Array × Nat :=
  let inodes := sortByKey Array.offset
    (chunks ++ [Array.mk 0 dataOffset, Array.mk 0 totalLength])
  let gaps := sortByKey Array.length (gapScan (Array.mk 0 dataOffset) inodes)
  match gaps.find? (fun i => decide (minSpace ≤ i.length)) with
  | some inode => ([Array.mk minSpace inode.offset], totalLength)
  | none =>
      ([Array.mk minSpace totalLength],
        totalLength + (minSpace + (0x1000 - minSpace % 0x1000)))

/-- Claim C1 (code bug): with one existing chunk [128,144), `data_offset()`
= 160 (the tables have moved past the chunk since it was allocated) and
container length 192, `allocate_chunks 64` wraps on the subtraction
`128 - 160`, producing a garbage gap of length `2^64 - 32`; first-fit then
selects it and returns the range [160,224) without extending the 192-byte
container, so the returned range is not contained in
`[data_offset, container length after the call)`. -/
theorem allocate_chunks_escapes_container :
    allocate_chunks [Array.mk 16 128] 160 192 64 = ([Array.mk 64 160], 192) ∧
    ¬ (160 + 64 ≤ 192) := by decide

/-- `Access` from src/access.rs: permission variants over a principal. -/
inductive Access where
  | none (principal : String)
  | read (principal : String)
  | readWrite (principal : String)
  | readWriteExecute (principal : String)
  | readExecute (principal : String)
  | custom (principal : String) (bits : Nat)
deriving DecidableEq

/-- `PageDescriptor` from src/page.rs lines 13-25.  The `modified` and
`created` timestamps are omitted: the source fills both with
`SystemTime::now()` and nothing in the claims depends on them. -/
structure PageDescriptor where
  name : String
  access_control_list : List Access
  inodes : List Array
deriving DecidableEq

/-- Error kinds returned by create_page / open_page
(`std::io::ErrorKind::AlreadyExists` and `NotFound`). -/
inductive IoError where
  | alreadyExists (path : String)
  | notFound (path : String)
deriving DecidableEq

/-- Lookup in the inode table (`HashMap::get`), modelled on an association
list. -/
def lookupPage (tab : List (String × PageDescriptor)) (path : String) :
    Option PageDescriptor :=
  (tab.find? (fun e => e.1 == path)).map Prod.snd

/-- Membership in the inode table (`HashMap::contains_key`). -/
def containsPage (tab : List (String × PageDescriptor)) (path : String) : Bool :=
  (lookupPage tab path).isSome

/-- All chunks of all pages, the allocator's view of the inode table
(src/database.rs lines 552-554). -/
def allChunks (tab : List (String × PageDescriptor)) : List Array :=
  (tab.map (fun e => e.2.inodes)).flatten

/-- The descriptor `create_page` builds for a fresh name
(src/database.rs lines 313-326): a `ReadWriteExecute("*")` ACL and the
ranges returned by `allocate_chunks(0x10)` as the chunk list. -/
def freshDescriptor (tab : List (String × PageDescriptor))
    (dataOffset totalLength : Nat) (path : String) : PageDescriptor where
  name := path
  access_control_list := [Access.readWriteExecute "*"]
  inodes := (allocate_chunks (allChunks tab) dataOffset totalLength 0x10).1

/-- `create_page` from src/database.rs lines 306-330: fail with
`AlreadyExists` when the name is in the inode table, otherwise allocate
0x10 bytes and return the new page's descriptor. -/
def create_page (tab : List (String × PageDescriptor))
    (dataOffset totalLength : Nat) (path : String) :
    Except IoError PageDescriptor :=
  if containsPage tab path then Except.error (IoError.alreadyExists path)
  else Except.ok (freshDescriptor tab dataOffset totalLength path)

/-- `open_page` from src/database.rs lines 332-348: look the name up in the
inode table, failing with `NotFound` when absent. -/
def open_page (tab : List (String × PageDescriptor)) (path : String) :
    Except IoError PageDescriptor :=
  match lookupPage tab path with
  | some page => Except.ok page
  | none => Except.error (IoError.notFound path)

/-- Claim C7: `create_page` fails with `AlreadyExists` iff the name is
present in the inode table, `open_page` fails with `NotFound` iff the name
is absent, and in the complementary cases each returns a page handle. -/
theorem create_open_page_spec (tab : List (String × PageDescriptor))
    (dataOffset totalLength : Nat) (path : String) :
    (create_page tab dataOffset totalLength path
        = Except.error (IoError.alreadyExists path)
      ↔ containsPage tab path = true) ∧
    (open_page tab path = Except.error (IoError.notFound path)
      ↔ containsPage tab path = false) ∧
    (containsPage tab path = false →
      create_page tab dataOffset totalLength path
        = Except.ok (freshDescriptor tab dataOffset totalLength path)) ∧
    (∀ page, lookupPage tab path = some page →
      open_page tab path = Except.ok page) := by
  unfold create_page open_page containsPage
  cases h : lookupPage tab path <;> simp [h]

/-- Root page descriptor of a blank database (src/database.rs
lines 241-247), used as a concrete inode-table entry. -/
def rootDescriptor : PageDescriptor where
  name := "/"
  access_control_list := [Access.readWriteExecute "*"]
  inodes := []

/-- Claim C7 witness: creating a fresh name on an empty table succeeds and
opening a present name returns its descriptor. -/
theorem create_open_page_spec_witness :
    create_page [] 0 0 "test" = Except.ok (freshDescriptor [] 0 0 "test") ∧
    open_page [("/", rootDescriptor)] "/" = Except.ok rootDescriptor :=
  ⟨(create_open_page_spec [] 0 0 "test").2.2.1 rfl,
   (create_open_page_spec [("/", rootDescriptor)] 0 0 "/").2.2.2
     rootDescriptor (by decide)⟩

/-- Sum of the chunk lengths of a page: its logical size. -/
def sumLen (l : List Array) : Nat := (l.map Array.length).sum

lemma allocate_chunks_singleton (chunks : List Array) (d t m : Nat) :
    ∃ off, (allocate_chunks chunks d t m).1 = [Array.mk m off] := by
  simp only [allocate_chunks]
  split <;> exact ⟨_, rfl⟩

/-- Claim C9: a successful `create_page` requests an allocation of exactly
0x10 bytes and installs the returned ranges as the descriptor's chunk list,
so a freshly created page has a non-empty chunk list and logical size 16. -/
theorem create_page_fresh_storage (tab : List (String × PageDescriptor))
    (dataOffset totalLength : Nat) (path : String)
    (h : containsPage tab path = false) :
    ∃ desc, create_page tab dataOffset totalLength path = Except.ok desc ∧
      desc.inodes = (allocate_chunks (allChunks tab) dataOffset totalLength 0x10).1 ∧
      desc.inodes ≠ [] ∧ sumLen desc.inodes = 16 := by
  obtain ⟨off, hoff⟩ :=
    allocate_chunks_singleton (allChunks tab) dataOffset totalLength 0x10
  refine ⟨freshDescriptor tab dataOffset totalLength path, ?_, rfl, ?_, ?_⟩
  · simp [create_page, h]
  · simp [freshDescriptor, hoff]
  · simp [freshDescriptor, sumLen, hoff]

/-- Claim C9 witness: create_page on an empty database. -/
theorem create_page_fresh_storage_witness :
    ∃ desc, create_page [] 0 0 "test" = Except.ok desc ∧
      desc.inodes = (allocate_chunks (allChunks []) 0 0 0x10).1 ∧
      desc.inodes ≠ [] ∧ sumLen desc.inodes = 16 :=
  create_page_fresh_storage [] 0 0 "test" rfl

/-- `Page::flush` from src/page.rs lines 161-163 is `todo!()`: the call
panics unconditionally, modelled as `none`. -/
def page_flush : Option Unit := none

/-- `Page::write` from src/page.rs lines 123-159.  The in-chunk locating
loop is the same loop as `Page::read` (`readLocate`).  When the cursor is
outside every chunk the source allocates `buf.len()` bytes, appends the
returned ranges to the descriptor, writes the buffer's prefix into the
first new chunk, and then calls `self.flush()`.  A successful call returns
(bytes written, updated chunk list, container length after the call);
`none` models a call that does not return successfully. -/
def page_write (pageChunks dbChunks : List Array)
    (index bufLen dataOffset totalLength : Nat) :
    Option (Nat × List Array × Nat) :=
  match readLocate pageChunks 0 index bufLen with
  | some loc => some (loc.2, pageChunks, totalLength)
  | none =>
    let alloc := allocate_chunks dbChunks dataOffset totalLength bufLen
    match alloc.1.head? with
    | none => none
    | some first =>
      match page_flush with
      | some _ => some (first.length, pageChunks ++ alloc.1, alloc.2)
      | none => none

/-- Claim C8 (code bug): on a page whose single chunk is [256,272) a 1-byte
write at cursor 16 (the logical end) takes the allocation path; the
allocator does return a range, but `Page::write` then calls `Page::flush`,
which is `todo!()` and panics, so the write never returns successfully and
`Database::write_header` never runs. -/
theorem page_write_panics_on_allocation_path :
    readLocate [Array.mk 16 256] 0 16 1 = none ∧
    (allocate_chunks [Array.mk 16 256] 160 4096 1).1 = [Array.mk 1 160] ∧
    page_flush = none ∧
    page_write [Array.mk 16 256] [Array.mk 16 256] 16 1 160 4096 = none := by
  decide

/-- Little-endian u16 byte image. -/
def u16le (x : Nat) : List Nat := [x % 256, x / 256 % 256]

/-- Little-endian u64 byte image. -/
def u64le (x : Nat) : List Nat :=
  [x % 256, x / 2 ^ 8 % 256, x / 2 ^ 16 % 256, x / 2 ^ 24 % 256,
   x / 2 ^ 32 % 256, x / 2 ^ 40 % 256, x / 2 ^ 48 % 256, x / 2 ^ 56 % 256]

/-- Little-endian value of a byte list. -/
def leVal : List Nat → Nat
  | [] => 0
  | b :: rest => b % 256 + 256 * leVal rest

/-- Wire-level inode-table record: the page name and the ACL principals
appear as string-table indices, exactly as on disk; an ACL entry is a
(permission byte, principal index) pair. -/
structure InodeRecord where
  nameIdx : Nat
  acl : List (Nat × Nat)
  chunks : List Array
deriving DecidableEq

/-- Flattened ACL byte image of `serialise_inode_table`
(src/database.rs lines 474-499): 9 bytes per entry, permission byte
followed by the u64 principal index. -/
def aclBytes (acl : List (Nat × Nat)) : List Nat :=
  (acl.map (fun e => e.1 % 256 :: u64le e.2)).flatten

/-- One record of `serialise_inode_table`, src/database.rs lines 501-515:
u64 name index, u16 ACL count, the ACL bytes, then
`vec![0x00; round(2 + (1 + 8) * acls.len(), 0x10)]` zero bytes where
`acls` is the flattened ACL byte vector (so `acls.len() = 9 * acl count`),
then the u64 chunk count and `(u64 length, u64 offset)` per chunk. -/
def serialiseInodeRecord (r : InodeRecord) : List Nat :=
  u64le r.nameIdx ++ u16le r.acl.length ++ aclBytes r.acl ++
    List.replicate (round (2 + (1 + 8) * (aclBytes r.acl).length) 0x10) 0 ++
    u64le r.chunks.length ++
    (r.chunks.map (fun c => u64le c.length ++ u64le c.offset)).flatten

/-- One record of `parse_inode_table`, src/database.rs lines 358-409: a
10-byte header (u64 name index, u16 ACL count), then a buffer of
`round((1 + 8) * acl_len, 0x10) - 2` bytes whose first `9 * acl_len` bytes
are the ACL entries and whose remainder is skipped, then the u64 chunk
count and 16 bytes per chunk (length first, offset second).  Each ACL
entry is decoded from its permission byte `i[0]` and — as in the source,
which passes the single byte `i[1]` to the string-table lookup — only the
low byte of the principal index.  Returns the record and the unconsumed
bytes; `none` models the panic of the slice `acl[0..9 * acl_len]` when
the buffer is shorter. -/
def parseInodeRecord (l : List Nat) : Option (InodeRecord × List Nat) :=
  let nameIdx := leVal (l.take 8)
  let aclLen := leVal ((l.drop 8).take 2)
  let rest := l.drop 10
  let aclBufLen := round ((1 + 8) * aclLen) 0x10 - 2
  if (1 + 8) * aclLen ≤ aclBufLen then
    let aclBuf := rest.take aclBufLen
    let acl := (List.range aclLen).map (fun i =>
      ((aclBuf.drop (9 * i)).headD 0, (aclBuf.drop (9 * i + 1)).headD 0))
    let rest2 := rest.drop aclBufLen
    let chunkLen := leVal (rest2.take 8)
    let chunkBytes := (rest2.drop 8).take (16 * chunkLen)
    let chunks := (List.range chunkLen).map (fun i =>
      Array.mk (leVal ((chunkBytes.drop (16 * i)).take 8))
               (leVal ((chunkBytes.drop (16 * i + 8)).take 8)))
    some (InodeRecord.mk nameIdx acl chunks, (rest2.drop 8).drop (16 * chunkLen))
  else none

set_option maxRecDepth 8192 in
/-- Claim C5 (code bug): for a record with one ACL entry the claimed (and
parser-side) padding is `round (2 + 9*1) 16 - (2 + 9*1) = 5` bytes, but the
serialiser emits `round (2 + 9*(9*1)) 16 = 96` zero bytes (it passes the
ACL byte-array length where the entry count belongs and omits subtracting
the unpadded length), giving a 139-byte record instead of the 48-byte one
the claim describes; parsing the serialised record back therefore reads
the chunk count out of padding zeros and loses the chunk list. -/
theorem inode_record_roundtrip_fails :
    round (2 + 9 * 1) 0x10 - (2 + 9 * 1) = 5 ∧
    (serialiseInodeRecord (InodeRecord.mk 1 [(7, 1)] [Array.mk 16 4096])).length
      = 139 ∧
    8 + 2 + 9 * 1 + 5 + 8 + 16 * 1 = 48 ∧
    (parseInodeRecord
        (serialiseInodeRecord (InodeRecord.mk 1 [(7, 1)] [Array.mk 16 4096]))).map
        Prod.fst
      = some (InodeRecord.mk 1 [(7, 1)] []) ∧
    InodeRecord.mk 1 [(7, 1)] [Array.mk 16 4096] ≠ InodeRecord.mk 1 [(7, 1)] [] := by
  decide

/-- `serialise_string_table` from src/database.rs lines 522-538: each entry
is written as `(i.len() as u64).to_le_bytes()` — an 8-byte u64 length
prefix — followed by the entry's bytes. -/
def serialise_string_table (tab : List (List Nat)) : List Nat :=
  (tab.map (fun s => u64le s.length ++ s)).flatten

/-- `parse_string_table` from src/database.rs lines 272-299.  The scratch
cursor `buf` starts as 512 zero bytes.  Each iteration copies the scratch
into `buffer`, calls `buffer.reserve(512)` — which only grows capacity,
leaving the length at 512 — and then
`backing.read_exact(&mut buffer[buf.get_ref().len()..])` on the resulting
empty slice, so nothing is ever read from the backing.  `strlen` is the
u16 at the scratch's start, the record is the next `strlen` scratch
bytes, and `buffer[total_space..]` is written back over the scratch's
start while its final `total_space` bytes keep their old values.  The
`backing` argument is therefore never consumed. -/
def parse_string_table (backing : List Nat) : Nat → List Nat → List (List Nat)
  | 0, _ => []
  | n + 1, scratch =>
    (scratch.drop 2).take (leVal (scratch.take 2)) ::
      parse_string_table backing n
        (scratch.drop (2 + leVal (scratch.take 2)) ++
          scratch.drop (512 - (2 + leVal (scratch.take 2))))

/-- `parse_string_table` started on the fresh 512-zero-byte scratch
cursor, as `Database::open` and `get_string_table` invoke it. -/
def parse_string_table_run (backing : List Nat) (count : Nat) : List (List Nat) :=
  parse_string_table backing count (List.replicate 512 0)

/-- Claim C6 (code bug): the serialiser writes an 8-byte u64 length prefix
where the claim (and the record format read by the header parser) say a
2-byte u16; and the parser never reads the backing at all — `read_exact`
is called on the empty slice past the 512-byte scratch — so it returns
the empty string for every record whatever the input.  Serialising the
table containing "/" (byte 0x2F) and parsing it back yields [""], not
["/"]; parsing an empty backing yields the same. -/
theorem string_table_roundtrip_fails :
    serialise_string_table [[0x2F]] = [1, 0, 0, 0, 0, 0, 0, 0, 0x2F] ∧
    parse_string_table_run (serialise_string_table [[0x2F]]) 1 = [[]] ∧
    parse_string_table_run [] 1 = [[]] ∧
    ([[]] : List (List Nat)) ≠ [[0x2F]] := by decide

/-- One positioned `write_all`: the container bytes at
`[off, off + bytes.length)` become `bytes`, everything else is kept. -/
def applyWrite (c : Nat → Nat) (off : Nat) (bytes : List Nat) : Nat → Nat :=
  fun p => if off ≤ p ∧ p < off + bytes.length then bytes.getD (p - off) 0 else c p

/-- Inode-table offset computed by `write_header`
(src/database.rs lines 416-431): the stream position after writing the
metadata at 0x50, aligned with `offset + (0x10 - offset % 0x10)`. -/
def inode_offset (metaLen : Nat) : Nat :=
  (0x50 + metaLen) + (0x10 - (0x50 + metaLen) % 0x10)

/-- String-table offset computed by `write_header`
(src/database.rs line 448): `(inode_offset + data.len()) + 0x100 & !0x100`. -/
def string_offset (metaLen inodeLen : Nat) : Nat :=
  ((inode_offset metaLen + inodeLen) + 0x100) &&& (2 ^ 64 - 1 - 0x100)

/-- History-table offset computed by `write_header`
(src/database.rs line 455), from the string offset and the string-table
entry count. -/
def history_offset (metaLen inodeLen strCount : Nat) : Nat :=
  string_offset metaLen inodeLen + strCount + 0x100
    - (string_offset metaLen inodeLen + strCount) % 0x100

/-- The 48-byte pointer block `write_header` emits
(src/database.rs lines 458-462): six little-endian u64 values
(inode length, inode offset, string length, string offset,
history length = 0, history offset), written at the stream position
reached after the string-table data. -/
def ptrBlock (metaLen inodeLen inodeCount strCount : Nat) : List Nat :=
  u64le inodeCount ++ u64le (inode_offset metaLen) ++ u64le strCount ++
    u64le (string_offset metaLen inodeLen) ++ u64le 0 ++
    u64le (history_offset metaLen inodeLen strCount)

/-- `write_header` from src/database.rs lines 415-465 as a byte-level
effect on the container: it performs exactly five positioned writes — the
0x50-byte raw header at 0, the metadata at 0x50, the serialised inode
table at `inode_offset`, the serialised string table at `string_offset`,
and the 48-byte pointer block directly after the string-table data. -/
def write_header (c : Nat → Nat) (rawHeader metaBytes inodeData strData : List Nat)
    (inodeCount strCount : Nat) : Nat → Nat :=
  applyWrite
    (applyWrite
      (applyWrite
        (applyWrite (applyWrite c 0 rawHeader) 0x50 metaBytes)
        (inode_offset metaBytes.length) inodeData)
      (string_offset metaBytes.length inodeData.length) strData)
    (string_offset metaBytes.length inodeData.length + strData.length)
    (ptrBlock metaBytes.length inodeData.length inodeCount strCount)

/-- `change_buffer` from src/database.rs lines 591-610: rebind the tables
to the new container and immediately run `write_header` on it; nothing
else is written to the new container. -/
def change_buffer (newContainer : Nat → Nat)
    (rawHeader metaBytes inodeData strData : List Nat)
    (inodeCount strCount : Nat) : Nat → Nat :=
  write_header newContainer rawHeader metaBytes inodeData strData inodeCount strCount

lemma ptrBlock_length (metaLen inodeLen inodeCount strCount : Nat) :
    (ptrBlock metaLen inodeLen inodeCount strCount).length = 48 := by
  simp [ptrBlock, u64le]

lemma applyWrite_out (c : Nat → Nat) (off : Nat) (bytes : List Nat) (p : Nat)
    (h : p < off ∨ off + bytes.length ≤ p) :
    applyWrite c off bytes p = c p := by
  simp only [applyWrite]
  rw [if_neg (by omega)]

/-- Claim C10: `change_buffer` writes to the new container only the raw
header bytes, the metadata, the inode table, the string table and the
48-byte header-pointer block; every byte outside those five regions — in
particular every byte of an existing page chunk lying in the data region
beyond them — is left untouched. -/
theorem change_buffer_frame (newContainer : Nat → Nat)
    (rawHeader metaBytes inodeData strData : List Nat)
    (inodeCount strCount p : Nat)
    (h1 : rawHeader.length ≤ p)
    (h2 : p < 0x50 ∨ 0x50 + metaBytes.length ≤ p)
    (h3 : p < inode_offset metaBytes.length ∨
      inode_offset metaBytes.length + inodeData.length ≤ p)
    (h4 : p < string_offset metaBytes.length inodeData.length ∨
      string_offset metaBytes.length inodeData.length + strData.length ≤ p)
    (h5 : p < string_offset metaBytes.length inodeData.length + strData.length ∨
      string_offset metaBytes.length inodeData.length + strData.length + 48 ≤ p) :
    change_buffer newContainer rawHeader metaBytes inodeData strData
      inodeCount strCount p = newContainer p := by
  have hp : p < string_offset metaBytes.length inodeData.length + strData.length ∨
      string_offset metaBytes.length inodeData.length + strData.length +
        (ptrBlock metaBytes.length inodeData.length inodeCount strCount).length
        ≤ p := by
    rw [ptrBlock_length]; exact h5
  unfold change_buffer write_header
  rw [applyWrite_out _ _ _ _ hp, applyWrite_out _ _ _ _ h4,
    applyWrite_out _ _ _ _ h3, applyWrite_out _ _ _ _ h2,
    applyWrite_out _ _ _ _ (by omega)]

/-- The all-zero fresh container. -/
def zeroContainer : Nat → Nat := fun _ => 0

/-- Claim C10 witness: a byte far past every written region (position
2^20) is untouched, for a header of 0x50 bytes, empty metadata, a 32-byte
inode table and a 16-byte string table. -/
theorem change_buffer_frame_witness :
    change_buffer zeroContainer (List.replicate 0x50 0) [] (List.replicate 32 0)
      (List.replicate 16 0) 1 2 1048576 = zeroContainer 1048576 :=
  change_buffer_frame zeroContainer (List.replicate 0x50 0) [] (List.replicate 32 0)
    (List.replicate 16 0) 1 2 1048576 (by decide) (by decide) (by decide)
    (by decide) (by decide)

end Fsdb
